import Mathlib

/-!
Verification of the worktree pool allocator and cross-process lock
coordinator of the wtx repository.

The lock coordinator implementation present in the sources is the one of
`lockWorktree` / `isWorktreeAvailable` / `worktreeLockPath` / `Release` /
`StartToucher` (src/unnamed/part_009); the pool allocator and orchestrator
are `nextWorktreePath` / `CreateWorktree` (src/unnamed/part_007).

The embedding models the filesystem as a partial map from paths to file
records (content plus modification time, in abstract time units standing
for seconds).  External primitives that the Go code calls but that are not
part of the repository are parameters of the embedding, collected in `Env`:
`hash` stands for hex-encoded SHA-256 (Go `crypto/sha256`, function
`hashString` of part_009), `real` for `filepath.Abs` followed by
`filepath.EvalSymlinks` (function `realPath` of part_009), `dirOf` /
`baseOf` for `filepath.Dir` / `filepath.Base`, and `home` for `$HOME`.
`filepath.Join` is modelled for clean, non-empty components as
concatenation with a slash.
-/

namespace Wtx

/-- The JSON payload written into a lock file by `lockPayload`
(part_009 lines 499-509): pid, owner identity, worktree path, repository
root and a timestamp (`time.Now()` in RFC3339, modelled as a `Nat` time
unit). -/
structure LockPayload where
  pid : Nat
  owner_id : String
  worktree_path : String
  repo_root : String
  timestamp : Nat
deriving DecidableEq, Repr

/-- A file on disk: its (decoded) content and its modification time, as
reported by `os.Stat(...).ModTime()`. -/
structure FileInfo where
  content : LockPayload
  mtime : Nat
deriving DecidableEq, Repr

/-- The filesystem state relevant to the lock coordinator: which lock
files exist, with their content and mtime. -/
def FS : Type := String → Option FileInfo

/-- Create or overwrite the file at path `p`. -/
def fsSet (fs : FS) (p : String) (fi : FileInfo) : FS :=
  fun q => if q = p then some fi else fs q

/-- Remove the file at path `p` (`os.Remove`; removing a missing file is
not tracked as an error, matching the ignored return values in the
source). -/
def fsDel (fs : FS) (p : String) : FS :=
  fun q => if q = p then none else fs q

/-- The external primitives used by the lock code, as oracles (see the
module comment). -/
structure Env where
  hash : String → String
  real : String → String
  dirOf : String → String
  baseOf : String → String
  home : String

/-- The identity of an acquiring process: its pid (`os.Getpid()`), and the
resolved user name and host name consumed by `buildOwnerID`. -/
structure Caller where
  pid : Nat
  user : String
  host : String

/-- `filepath.Join` for clean non-empty components. -/
def joinPath (a b : String) : String := a ++ "/" ++ b

/-- `buildOwnerID` (part_009 lines 577-595): `user@host` with fallbacks
when either half is missing. -/
def buildOwnerID (c : Caller) : String :=
  if c.user = "" ∧ c.host = "" then "unknown"
  else if c.host = "" then c.user
  else if c.user = "" then c.host
  else c.user ++ "@" ++ c.host

/-- `worktreeLockPath` (part_009 lines 547-562): the lock-file location
derived from the symlink-resolved repository root and worktree path via a
stable hash, under `$HOME/.claudex/locks`. -/
def worktreeLockPath (env : Env) (repoRoot worktreePath : String) : String :=
  let repoRootReal := env.real repoRoot
  let worktreeReal := env.real worktreePath
  let repoID := env.hash repoRootReal
  let worktreeID := env.hash (repoID ++ ":" ++ worktreeReal)
  let lockDir := joinPath (joinPath env.home ".claudex") "locks"
  joinPath lockDir (worktreeID ++ ".lock")

/-- `lockPayload` (part_009 lines 499-509): the record written into a
freshly acquired lock file. -/
def lockPayload (c : Caller) (now : Nat) (repoRoot worktreePath : String) :
    LockPayload :=
  { pid := c.pid
    owner_id := buildOwnerID c
    worktree_path := worktreePath
    repo_root := repoRoot
    timestamp := now }

/-- The in-memory lock handle built by `newWorktreeLock`
(part_009 lines 511-519); the toucher channel is not part of the
functional state. -/
structure WorktreeLockR where
  Path : String
  WorktreePath : String
  RepoRoot : String
  Branch : String
deriving DecidableEq, Repr

/-- `newWorktreeLock` (part_009 lines 511-519). -/
def newWorktreeLock (path wtPath wtBranch repoRoot : String) : WorktreeLockR :=
  { Path := path, WorktreePath := wtPath, RepoRoot := repoRoot, Branch := wtBranch }

/-- `lockWorktree` (part_009 lines 449-497), the `Acquire` operation.
`now` is the current time, so `time.Since(mtime)` is `now - mtime`.
`writeErr` models the outcome of the payload `file.Write` after the
exclusive `os.OpenFile(..., O_CREATE|O_EXCL, ...)` create: `none` means
the write succeeds, `some e` means it fails with error `e`, in which case
the just-created file is removed again (lines 464-473).  Failures of the
temp-file write or rename in the stale-reclaim branch are not modelled
(no claim depends on them), nor are `Stat`/`MkdirAll` failures. -/
def lockWorktree (env : Env) (fs : FS) (now : Nat) (c : Caller)
    (repoRoot wtPath wtBranch : String) (writeErr : Option String) :
    Except String WorktreeLockR × FS :=
  let lockPath := worktreeLockPath env repoRoot wtPath
  let payload := lockPayload c now repoRoot wtPath
  match fs lockPath with
  | none =>
      match writeErr with
      | some werr =>
          (Except.error werr, fsDel (fsSet fs lockPath ⟨payload, now⟩) lockPath)
      | none =>
          (Except.ok (newWorktreeLock lockPath wtPath wtBranch repoRoot),
           fsSet fs lockPath ⟨payload, now⟩)
  | some info =>
      if now - info.mtime < 10 then
        (Except.error "worktree locked", fs)
      else
        let tmpPath := lockPath ++ ".tmp"
        let fs1 := fsSet fs tmpPath ⟨payload, now⟩
        let fs2 := fsSet (fsDel fs1 tmpPath) lockPath ⟨payload, now⟩
        (Except.ok (newWorktreeLock lockPath wtPath wtBranch repoRoot), fs2)

/-- `isWorktreeAvailable` (part_009 lines 431-447): a worktree is
available when its lock file is absent, or present with an mtime at least
10 time units old. -/
def isWorktreeAvailable (env : Env) (fs : FS) (now : Nat)
    (repoRoot worktreePath : String) : Bool :=
  match fs (worktreeLockPath env repoRoot worktreePath) with
  | some info => if now - info.mtime < 10 then false else true
  | none => true

/-- `Release` (part_009 lines 543-545): unconditional delete of the lock
file, regardless of owner liveness; this is the operation the spec calls
`ForceUnlock` / `Release`. -/
def Release (fs : FS) (l : WorktreeLockR) : FS := fsDel fs l.Path

/-- The path of pool slot `i`: `filepath.Join(parent, base + ".wt")`
joined with `fmt.Sprintf("wt.%d", i)`, where `parent`/`base` are
`filepath.Dir`/`filepath.Base` of the repository root
(`nextWorktreePath`, part_007 lines 604-610). -/
def slotPath (env : Env) (repoRoot : String) (i : Nat) : String :=
  let base := env.baseOf repoRoot
  let parent := env.dirOf repoRoot
  let worktreeRoot := joinPath parent (base ++ ".wt")
  joinPath worktreeRoot ("wt." ++ toString i)

/-- The scanning loop of `nextWorktreePath` (part_007 lines 608-617):
`for i := 1; i < 10000; i++`, returning the first candidate that does not
exist on disk.  `ex` is the existence oracle (`os.Stat` succeeding); the
branch that propagates other `Stat` errors is not modelled.  The fuel
argument counts the remaining iterations. -/
def nextWorktreePathFrom (env : Env) (ex : String → Bool) (repoRoot : String) :
    Nat → Nat → Except String String
  | 0, _ => Except.error "no available worktree path"
  | fuel + 1, i =>
      let candidate := slotPath env repoRoot i
      if ex candidate then nextWorktreePathFrom env ex repoRoot fuel (i + 1)
      else Except.ok candidate

/-- `nextWorktreePath` (part_007 lines 604-619): scan slots 1 through
9999 and fail with pool exhaustion once the bound is reached. -/
def nextWorktreePath (env : Env) (ex : String → Bool) (repoRoot : String) :
    Except String String :=
  nextWorktreePathFrom env ex repoRoot 9999 1

/-- `strings.TrimSpace`, modelled structurally on the character list so
that concrete instances evaluate: drop whitespace from both ends. -/
def trimSpace (s : String) : String :=
  String.mk
    (((s.toList.dropWhile Char.isWhitespace).reverse.dropWhile
        Char.isWhitespace).reverse)

/-- `strings.Contains`, modelled via `splitOn`: a pattern occurs in `s`
exactly when splitting on it yields more than one part. -/
def strContainsPat (s pat : String) : Bool :=
  (s.splitOn pat).length != 1

/-- `friendlyBranchCheckoutError` (part_007 lines 576-591): translate
known git phrasings into friendlier messages, falling back to the raw
(trimmed) output, then to the raw process error `fallback`. -/
def friendlyBranchCheckoutError (branch output fallback : String) : String :=
  let msg := trimSpace output
  let lower := msg.toLower
  if strContainsPat lower "already exists" then
    "branch \"" ++ branch ++ "\" already exists"
  else if strContainsPat lower "is already checked out at" then
    "branch \"" ++ branch ++ "\" is already checked out in another worktree"
  else if strContainsPat lower "did not match any file(s) known to git" then
    "branch \"" ++ branch ++ "\" was not found"
  else if msg ≠ "" then msg
  else fallback

/-- Observable events of one `CreateWorktree` call, used to state the
ordering of lock acquisition, `git worktree add`, and lock release. -/
inductive Event where
  | lockAcquired
  | gitWorktreeAdd
  | lockReleased
deriving DecidableEq, Repr

/-- Outcomes of the external processes `CreateWorktree` consults:
whether git is installed (`exec.LookPath`), the `rev-parse
--show-toplevel` result, the `prepareBaseRefForCheckout` result, and the
`git worktree add` outcome with its combined output.
`lockCreateWriteErr` is threaded to `lockWorktree` (see there). -/
structure GitEnv where
  gitInstalled : Bool
  repoRoot : Option String
  baseRef : Except String String
  addOk : Bool
  addOutput : String
  lockCreateWriteErr : Option String

/-- The record returned by `CreateWorktree` (the `Path`/`Branch` fields
of part_007's `WorktreeInfo`; the PR-status fields are irrelevant
here). -/
structure WorktreeInfoR where
  Path : String
  Branch : String
deriving DecidableEq, Repr

/-- `CreateWorktree` (part_007 lines 168-206): validate the branch name,
locate the repository, allocate the next pool slot, acquire its lock
(`m.lockMgr.Acquire`, whose implementation in the sources is
`lockWorktree` of part_009), run `git worktree add`, and release the lock
on return (`defer lock.Release()`), on the success path and on every
failure path after acquisition.  Besides the result and the filesystem,
the model returns the list of observable events in order. -/
def CreateWorktree (env : Env) (g : GitEnv) (ex : String → Bool) (fs : FS)
    (now : Nat) (c : Caller) (branch : String) :
    Except String WorktreeInfoR × FS × List Event :=
  let branch := trimSpace branch
  if branch = "" then (Except.error "branch name required", fs, [])
  else if ¬ g.gitInstalled then (Except.error "git not installed", fs, [])
  else
    match g.repoRoot with
    | none => (Except.error "not in a git repository", fs, [])
    | some repoRoot =>
      if trimSpace repoRoot = "" then (Except.error "not in a git repository", fs, [])
      else
        match nextWorktreePath env ex repoRoot with
        | Except.error e => (Except.error e, fs, [])
        | Except.ok target =>
          match lockWorktree env fs now c repoRoot target branch
              g.lockCreateWriteErr with
          | (Except.error e, fs1) => (Except.error e, fs1, [])
          | (Except.ok lock, fs1) =>
            match g.baseRef with
            | Except.error e =>
                (Except.error e, Release fs1 lock,
                 [Event.lockAcquired, Event.lockReleased])
            | Except.ok _ =>
                if g.addOk then
                  (Except.ok ⟨target, branch⟩, Release fs1 lock,
                   [Event.lockAcquired, Event.gitWorktreeAdd, Event.lockReleased])
                else
                  (Except.error
                     (friendlyBranchCheckoutError branch g.addOutput
                       "git worktree add failed"),
                   Release fs1 lock,
                   [Event.lockAcquired, Event.gitWorktreeAdd, Event.lockReleased])

/-- A liveness oracle for lock owners: whether a pid is in the OS process
table and whether a multiplexer session is alive (spec section 4.2).  The
availability and acquisition code of part_009 takes no such input; the
oracle exists to state claims about liveness. -/
structure Liveness where
  pidAlive : Nat → Bool
  sessionAlive : String → Bool

/-- The staleness criterion as actually implemented (the amended claim
C4): availability depends only on the presence of the lock file and its
mtime age against the 10-unit threshold. -/
def mtimeOnlyAvailable (fs : FS) (now : Nat) (p : String) : Bool :=
  match fs p with
  | none => true
  | some info => decide (10 ≤ now - info.mtime)

/-- Split a character list at every colon; total, never returns `[]`. -/
def splitColons : List Char → List (List Char)
  | [] => [[]]
  | ch :: rest =>
      if ch = ':' then [] :: splitColons rest
      else
        match splitColons rest with
        | [] => [[ch]]
        | h :: t => (ch :: h) :: t

/-- Rejoin what `splitColons` produced, reinserting the colons. -/
def joinColons : List (List Char) → List Char
  | [] => []
  | x :: xs =>
      match xs with
      | [] => x
      | _ :: _ => x ++ ':' :: joinColons xs

/-- Modelled from the spec: `parseTmuxOwnerID` of the cmd package, whose
implementation is absent from src (only its test,
`TestParseTmuxOwnerID` in part_003, is present).  Per spec section 4.1,
`Decode` parses the `tmux:` prefix into session and optional window and
returns `ok=false` for any string not starting with `tmux:` or with an
empty session component after the prefix. -/
def parseTmuxOwnerID (ownerID : String) : String × String × Bool :=
  match splitColons ownerID.toList with
  | t :: sess :: ws =>
      if t = "tmux".toList then
        if sess.isEmpty then ("", "", false)
        else (String.mk sess, String.mk (joinColons ws), true)
      else ("", "", false)
  | _ => ("", "", false)

/-- Modelled from the spec: the multiplexer half of `Encode` (spec
section 4.1), whose implementation is absent from src: produce
`tmux:<sessionID>` or `tmux:<sessionID>:<windowID>`. -/
def encodeTmuxOwnerID (sessionID windowID : String) : String :=
  if windowID = "" then "tmux:" ++ sessionID
  else "tmux:" ++ sessionID ++ ":" ++ windowID

/-- The lock-file mtime produced by the heartbeat toucher
(`StartToucher`, part_009 lines 521-535): the file is created at time
`acq` and its mtime is refreshed by a ticker every 2 time units until the
toucher is stopped at time `stop` (`StopToucher` closes the channel and
the goroutine returns, so no touch happens after `stop`).  At time `t`
the mtime is therefore the last tick not after `min t stop`. -/
def toucherMtime (acq stop t : Nat) : Nat :=
  let e := min t stop
  if acq ≤ e then acq + 2 * ((e - acq) / 2) else acq

/-- A concrete environment for witnesses: identity hash and path
resolution, a fixed parent directory `/p` and repository basename `B`. -/
def envW : Env :=
  { hash := fun s => s
    real := fun s => s
    dirOf := fun _ => "/p"
    baseOf := fun _ => "B"
    home := "/home/u" }

/-- A concrete environment whose path resolution collapses the symlink
spelling `/a/link` to `/a/real`, for the C3 witness. -/
def envS : Env :=
  { hash := fun s => s
    real := fun s => if s = "/a/link" then "/a/real" else s
    dirOf := fun _ => "/a"
    baseOf := fun _ => "real"
    home := "/home/u" }

/-- A concrete caller for witnesses. -/
def callerW : Caller := { pid := 42, user := "alice", host := "box" }

/-- A concrete git environment for witnesses: git installed, repository
root `/p/B`, base ref resolved, `git worktree add` succeeding. -/
def gW : GitEnv :=
  { gitInstalled := true
    repoRoot := some "/p/B"
    baseRef := Except.ok "main"
    addOk := true
    addOutput := ""
    lockCreateWriteErr := none }

theorem fsSet_same (fs : FS) (p : String) (fi : FileInfo) :
    fsSet fs p fi p = some fi := by
  simp [fsSet]

theorem fsDel_same (fs : FS) (p : String) : fsDel fs p p = none := by
  simp [fsDel]

/-- C3: the lock-file path is a deterministic function of the
symlink-resolved repository root and worktree path: two spellings of the
repository root and of the worktree path that resolve to the same real
paths derive the identical lock-file path, so both processes converge on
the same file. -/
theorem lock_path_converges (env : Env) (root1 root2 wt1 wt2 : String)
    (hroot : env.real root1 = env.real root2)
    (hwt : env.real wt1 = env.real wt2) :
    worktreeLockPath env root1 wt1 = worktreeLockPath env root2 wt2 := by
  unfold worktreeLockPath
  rw [hroot, hwt]

/-- Witness for C3: the spellings `/a/link` and `/a/real` resolve to the
same real path under `envS`, so their derived lock paths coincide. -/
theorem lock_path_converges_witness :
    envS.real "/a/link" = envS.real "/a/real" ∧
    envS.real "/a/w" = envS.real "/a/w" ∧
    worktreeLockPath envS "/a/link" "/a/w" = worktreeLockPath envS "/a/real" "/a/w" :=
  ⟨by decide, rfl,
    lock_path_converges envS "/a/link" "/a/real" "/a/w" "/a/w" (by decide) rfl⟩

/-- C9: after `Release` of the lock record for worktree `wt` — the
unconditional delete of the lock file used as force-unlock, regardless of
owner liveness — `isWorktreeAvailable` reports the worktree available. -/
theorem release_makes_available (env : Env) (fs : FS) (now : Nat)
    (root wt br : String) :
    isWorktreeAvailable env
      (Release fs (newWorktreeLock (worktreeLockPath env root wt) wt br root))
      now root wt = true := by
  simp [isWorktreeAvailable, Release, newWorktreeLock, fsDel_same]

/-- C1: on a worktree with no existing lock file, a first acquisition
succeeds by creating the lock file exclusively, and a second acquisition
without an intervening release, while the first holder is still live (in
this code: while the lock file's mtime is under 10 time units old), fails
with the error "worktree locked" and leaves the existing holder's lock
file in place. -/
theorem acquire_twice_locked (env : Env) (fs : FS) (c1 c2 : Caller)
    (root wt br1 br2 : String) (t1 t2 : Nat)
    (h0 : fs (worktreeLockPath env root wt) = none)
    (hlive : t2 - t1 < 10) :
    (lockWorktree env fs t1 c1 root wt br1 none).1 =
      Except.ok (newWorktreeLock (worktreeLockPath env root wt) wt br1 root)
    ∧ (lockWorktree env fs t1 c1 root wt br1 none).2
        (worktreeLockPath env root wt) =
      some ⟨lockPayload c1 t1 root wt, t1⟩
    ∧ (lockWorktree env (lockWorktree env fs t1 c1 root wt br1 none).2 t2 c2
        root wt br2 none).1 = Except.error "worktree locked"
    ∧ (lockWorktree env (lockWorktree env fs t1 c1 root wt br1 none).2 t2 c2
        root wt br2 none).2 = (lockWorktree env fs t1 c1 root wt br1 none).2 := by
  refine ⟨?_, ?_, ?_, ?_⟩ <;>
    simp [lockWorktree, h0, fsSet_same, hlive]

/-- Witness for C1 at a concrete filesystem and times 0 and 5. -/
theorem acquire_twice_locked_witness :
    (fun (_ : String) => (none : Option FileInfo))
        (worktreeLockPath envW "/p/B" "/p/B.wt/wt.1") = none
    ∧ (5 : Nat) - 0 < 10
    ∧ ((lockWorktree envW (fun _ => none) 0 callerW "/p/B" "/p/B.wt/wt.1" "b1"
          none).1 =
        Except.ok (newWorktreeLock (worktreeLockPath envW "/p/B" "/p/B.wt/wt.1")
          "/p/B.wt/wt.1" "b1" "/p/B")
      ∧ (lockWorktree envW (fun _ => none) 0 callerW "/p/B" "/p/B.wt/wt.1" "b1"
          none).2 (worktreeLockPath envW "/p/B" "/p/B.wt/wt.1") =
        some ⟨lockPayload callerW 0 "/p/B" "/p/B.wt/wt.1", 0⟩
      ∧ (lockWorktree envW
          (lockWorktree envW (fun _ => none) 0 callerW "/p/B" "/p/B.wt/wt.1" "b1"
            none).2 5 callerW "/p/B" "/p/B.wt/wt.1" "b2" none).1 =
        Except.error "worktree locked"
      ∧ (lockWorktree envW
          (lockWorktree envW (fun _ => none) 0 callerW "/p/B" "/p/B.wt/wt.1" "b1"
            none).2 5 callerW "/p/B" "/p/B.wt/wt.1" "b2" none).2 =
        (lockWorktree envW (fun _ => none) 0 callerW "/p/B" "/p/B.wt/wt.1" "b1"
          none).2) :=
  ⟨rfl, by decide,
    acquire_twice_locked envW (fun _ => none) callerW callerW "/p/B" "/p/B.wt/wt.1"
      "b1" "b2" 0 5 rfl (by decide)⟩

/-- C2: when the existing lock file's owner is stale (in this code: the
lock file's mtime is at least 10 time units old), a new caller's
acquisition succeeds by overwriting the record, and afterwards the lock
file's recorded pid and owner identity equal the new caller's pid and
owner identity. -/
theorem stale_lock_reclaimed (env : Env) (fs : FS) (now : Nat) (c : Caller)
    (root wt br : String) (fi : FileInfo)
    (h : fs (worktreeLockPath env root wt) = some fi)
    (hstale : 10 ≤ now - fi.mtime) :
    (lockWorktree env fs now c root wt br none).1 =
      Except.ok (newWorktreeLock (worktreeLockPath env root wt) wt br root)
    ∧ (lockWorktree env fs now c root wt br none).2
        (worktreeLockPath env root wt) =
      some ⟨lockPayload c now root wt, now⟩
    ∧ (lockPayload c now root wt).pid = c.pid
    ∧ (lockPayload c now root wt).owner_id = buildOwnerID c := by
  have hnl : ¬ (now - fi.mtime < 10) := by omega
  refine ⟨?_, ?_, rfl, rfl⟩ <;>
    simp [lockWorktree, h, hnl, fsSet_same]

/-- Witness for C2: a stale lock (mtime 0, checked at time 10) is
reclaimed by `callerW`. -/
theorem stale_lock_reclaimed_witness :
    (fun (_ : String) =>
        some (⟨⟨7, "old@host", "/p/B.wt/wt.1", "/p/B", 0⟩, 0⟩ : FileInfo))
        (worktreeLockPath envW "/p/B" "/p/B.wt/wt.1") =
      some ⟨⟨7, "old@host", "/p/B.wt/wt.1", "/p/B", 0⟩, 0⟩
    ∧ (10 : Nat) ≤ 10 - (0 : Nat)
    ∧ ((lockWorktree envW
          (fun _ => some ⟨⟨7, "old@host", "/p/B.wt/wt.1", "/p/B", 0⟩, 0⟩) 10
          callerW "/p/B" "/p/B.wt/wt.1" "b" none).1 =
        Except.ok (newWorktreeLock (worktreeLockPath envW "/p/B" "/p/B.wt/wt.1")
          "/p/B.wt/wt.1" "b" "/p/B")
      ∧ (lockWorktree envW
          (fun _ => some ⟨⟨7, "old@host", "/p/B.wt/wt.1", "/p/B", 0⟩, 0⟩) 10
          callerW "/p/B" "/p/B.wt/wt.1" "b" none).2
          (worktreeLockPath envW "/p/B" "/p/B.wt/wt.1") =
        some ⟨lockPayload callerW 10 "/p/B" "/p/B.wt/wt.1", 10⟩
      ∧ (lockPayload callerW 10 "/p/B" "/p/B.wt/wt.1").pid = callerW.pid
      ∧ (lockPayload callerW 10 "/p/B" "/p/B.wt/wt.1").owner_id =
          buildOwnerID callerW) :=
  ⟨rfl, by decide,
    stale_lock_reclaimed envW
      (fun _ => some ⟨⟨7, "old@host", "/p/B.wt/wt.1", "/p/B", 0⟩, 0⟩) 10 callerW
      "/p/B" "/p/B.wt/wt.1" "b" ⟨⟨7, "old@host", "/p/B.wt/wt.1", "/p/B", 0⟩, 0⟩
      rfl (by decide)⟩

/-- C10: if the exclusive create of the lock file succeeds but writing
the payload fails, the just-created lock file is removed before the
write error is returned, so the failed acquisition leaves no lock file
behind and a subsequent acquisition of the same worktree succeeds. -/
theorem failed_write_removes_lock (env : Env) (fs : FS) (c1 c2 : Caller)
    (root wt br1 br2 : String) (t1 t2 : Nat) (werr : String)
    (h0 : fs (worktreeLockPath env root wt) = none) :
    (lockWorktree env fs t1 c1 root wt br1 (some werr)).1 = Except.error werr
    ∧ (lockWorktree env fs t1 c1 root wt br1 (some werr)).2
        (worktreeLockPath env root wt) = none
    ∧ (lockWorktree env (lockWorktree env fs t1 c1 root wt br1 (some werr)).2
        t2 c2 root wt br2 none).1 =
      Except.ok (newWorktreeLock (worktreeLockPath env root wt) wt br2 root) := by
  refine ⟨?_, ?_, ?_⟩ <;>
    simp [lockWorktree, h0, fsDel_same]

/-- Witness for C10 at a concrete filesystem. -/
theorem failed_write_removes_lock_witness :
    (fun (_ : String) => (none : Option FileInfo))
        (worktreeLockPath envW "/p/B" "/p/B.wt/wt.1") = none
    ∧ ((lockWorktree envW (fun _ => none) 0 callerW "/p/B" "/p/B.wt/wt.1" "b1"
          (some "disk full")).1 = Except.error "disk full"
      ∧ (lockWorktree envW (fun _ => none) 0 callerW "/p/B" "/p/B.wt/wt.1" "b1"
          (some "disk full")).2 (worktreeLockPath envW "/p/B" "/p/B.wt/wt.1") =
        none
      ∧ (lockWorktree envW
          (lockWorktree envW (fun _ => none) 0 callerW "/p/B" "/p/B.wt/wt.1" "b1"
            (some "disk full")).2 1 callerW "/p/B" "/p/B.wt/wt.1" "b2" none).1 =
        Except.ok (newWorktreeLock (worktreeLockPath envW "/p/B" "/p/B.wt/wt.1")
          "/p/B.wt/wt.1" "b2" "/p/B")) :=
  ⟨rfl,
    failed_write_removes_lock envW (fun _ => none) callerW callerW "/p/B"
      "/p/B.wt/wt.1" "b1" "b2" 0 1 "disk full" rfl⟩

/-- Counterexample to C4 as stated: it is not the case that an existing
lock whose owner is fully live (pid in the process table and multiplexer
session alive) is never classified as stale — at mtime age exactly 10
units the availability check classifies the lock as stale on mtime alone,
with no liveness input consulted at all. -/
theorem staleness_ignores_liveness_counterexample :
    ¬ (∀ (live : Liveness) (env : Env) (fs : FS) (now : Nat) (root wt : String)
        (fi : FileInfo),
        fs (worktreeLockPath env root wt) = some fi →
        live.pidAlive fi.content.pid = true →
        live.sessionAlive fi.content.owner_id = true →
        isWorktreeAvailable env fs now root wt = false) := by
  intro h
  have hh := h ⟨fun _ => true, fun _ => true⟩ envW
    (fun _ => some ⟨⟨42, "tmux:$1", "/p/B.wt/wt.1", "/p/B", 0⟩, 0⟩) 10
    "/p/B" "/p/B.wt/wt.1" ⟨⟨42, "tmux:$1", "/p/B.wt/wt.1", "/p/B", 0⟩, 0⟩
    rfl rfl rfl
  exact absurd hh (by decide)

/-- C4 amended: in the availability check and in acquisition, the
staleness decision is made solely from the lock file's existence and
mtime age against the 10-unit threshold — owner liveness is not
consulted.  Availability coincides with the pure mtime criterion, and
acquisition fails with "worktree locked" exactly when the availability
check reports the worktree unavailable. -/
theorem staleness_is_mtime_only (env : Env) (fs : FS) (now : Nat) (c : Caller)
    (root wt br : String) :
    isWorktreeAvailable env fs now root wt =
      mtimeOnlyAvailable fs now (worktreeLockPath env root wt)
    ∧ ((lockWorktree env fs now c root wt br none).1 =
        Except.error "worktree locked" ↔
      isWorktreeAvailable env fs now root wt = false) := by
  constructor
  · unfold isWorktreeAvailable mtimeOnlyAvailable
    cases hfs : fs (worktreeLockPath env root wt) with
    | none => rfl
    | some fi =>
        by_cases hlt : now - fi.mtime < 10
        all_goals simp [hlt]
        all_goals omega
  · unfold isWorktreeAvailable lockWorktree
    cases hfs : fs (worktreeLockPath env root wt) with
    | none => simp [hfs]
    | some fi =>
        by_cases hlt : now - fi.mtime < 10 <;> simp [hfs, hlt]

/-- C8: while a held lock's heartbeat toucher refreshes the lock file's
mtime every 2 time units, a staleness check using the 10-unit threshold
never classifies the live holder as stale as long as heartbeats keep
arriving on schedule (first conjunct, at any check time `t` between
acquisition and stop); and the toucher stops when the holder releases
the lock: after the stop time the mtime never advances again (second
conjunct). -/
theorem heartbeat_never_stale (env : Env) (fs : FS) (root wt : String)
    (pl : LockPayload) (acq stop t : Nat)
    (hacq : acq ≤ t) (hstop : t ≤ stop) :
    isWorktreeAvailable env
      (fsSet fs (worktreeLockPath env root wt) ⟨pl, toucherMtime acq stop t⟩)
      t root wt = false
    ∧ ∀ u, stop ≤ u → toucherMtime acq stop u = toucherMtime acq stop stop := by
  constructor
  · have hmin : min t stop = t := Nat.min_eq_left hstop
    have hdm := Nat.div_add_mod (t - acq) 2
    have hml : (t - acq) % 2 < 2 := Nat.mod_lt _ (by norm_num)
    have hfresh : t - toucherMtime acq stop t < 10 := by
      unfold toucherMtime
      rw [hmin, if_pos hacq]
      omega
    simp [isWorktreeAvailable, fsSet_same, hfresh]
  · intro u hu
    unfold toucherMtime
    rw [Nat.min_eq_right hu, Nat.min_self]

/-- Witness for C8: acquisition at time 0, stop at time 100, check at
time 7. -/
theorem heartbeat_never_stale_witness :
    (0 : Nat) ≤ 7 ∧ (7 : Nat) ≤ 100 ∧
    (isWorktreeAvailable envW
      (fsSet (fun _ => none) (worktreeLockPath envW "/p/B" "/p/B.wt/wt.1")
        ⟨lockPayload callerW 0 "/p/B" "/p/B.wt/wt.1", toucherMtime 0 100 7⟩)
      7 "/p/B" "/p/B.wt/wt.1" = false
    ∧ ∀ u, 100 ≤ u → toucherMtime 0 100 u = toucherMtime 0 100 100) :=
  ⟨by decide, by decide,
    heartbeat_never_stale envW (fun _ => none) "/p/B" "/p/B.wt/wt.1"
      (lockPayload callerW 0 "/p/B" "/p/B.wt/wt.1") 0 100 7 (by decide)
      (by decide)⟩

theorem nextWorktreePathFrom_ok (env : Env) (ex : String → Bool)
    (root : String) :
    ∀ fuel i N, i ≤ N → N < i + fuel →
    (∀ k, i ≤ k → k < N → ex (slotPath env root k) = true) →
    ex (slotPath env root N) = false →
    nextWorktreePathFrom env ex root fuel i = Except.ok (slotPath env root N)
  | 0, i, N, hle, hlt, _, _ => by omega
  | fuel + 1, i, N, hle, hlt, hall, hN => by
      unfold nextWorktreePathFrom
      by_cases hi : i = N
      · subst hi
        simp [hN]
      · have hex : ex (slotPath env root i) = true := hall i le_rfl (by omega)
        simp only [hex, if_true]
        exact nextWorktreePathFrom_ok env ex root fuel (i + 1) N (by omega)
          (by omega) (fun k hk1 hk2 => hall k (by omega) hk2) hN

theorem nextWorktreePathFrom_exhausted (env : Env) (ex : String → Bool)
    (root : String) :
    ∀ fuel i, (∀ k, i ≤ k → k < i + fuel → ex (slotPath env root k) = true) →
    nextWorktreePathFrom env ex root fuel i =
      Except.error "no available worktree path"
  | 0, _, _ => rfl
  | fuel + 1, i, hall => by
      unfold nextWorktreePathFrom
      have hex : ex (slotPath env root i) = true := hall i le_rfl (by omega)
      simp only [hex, if_true]
      exact nextWorktreePathFrom_exhausted env ex root fuel (i + 1)
        (fun k hk1 hk2 => hall k (by omega) (by omega))

/-- C5: `nextWorktreePath` on a repository root with parent `P` and
basename `B` returns the path `P/B.wt/wt.N` for the smallest `N ≥ 1`
whose slot does not exist on disk (first conjunct), scanning only up to
the fixed bound 9999; and when every slot up to the bound exists it
returns the pool-exhaustion error instead of looping forever (second
conjunct). -/
theorem next_slot_spec (env : Env) (ex : String → Bool) (root : String) :
    (∀ N, 1 ≤ N → N ≤ 9999 →
      (∀ k, 1 ≤ k → k < N → ex (slotPath env root k) = true) →
      ex (slotPath env root N) = false →
      nextWorktreePath env ex root = Except.ok (slotPath env root N))
    ∧ ((∀ k, 1 ≤ k → k ≤ 9999 → ex (slotPath env root k) = true) →
      nextWorktreePath env ex root =
        Except.error "no available worktree path") := by
  constructor
  · intro N h1 h2 hall hN
    exact nextWorktreePathFrom_ok env ex root 9999 1 N h1 (by omega) hall hN
  · intro hall
    exact nextWorktreePathFrom_exhausted env ex root 9999 1
      (fun k hk1 hk2 => hall k hk1 (by omega))

/-- Witness for C5: with slots 1 and 2 occupied and slot 3 free,
allocation returns `/p/B.wt/wt.3`; with no slot occupied it returns
`/p/B.wt/wt.1`; with every slot occupied it reports pool exhaustion. -/
theorem next_slot_spec_witness :
    nextWorktreePath envW
        (fun s => s == "/p/B.wt/wt.1" || s == "/p/B.wt/wt.2") "/p/B" =
      Except.ok "/p/B.wt/wt.3"
    ∧ nextWorktreePath envW (fun _ => false) "/p/B" = Except.ok "/p/B.wt/wt.1"
    ∧ nextWorktreePath envW (fun _ => true) "/p/B" =
      Except.error "no available worktree path" := by
  refine ⟨?_, ?_, ?_⟩
  · have h := (next_slot_spec envW
        (fun s => s == "/p/B.wt/wt.1" || s == "/p/B.wt/wt.2") "/p/B").1 3
      (by decide) (by decide)
      (by intro k hk1 hk2; interval_cases k <;> decide) (by decide)
    exact h
  · have h := (next_slot_spec envW (fun _ => false) "/p/B").1 1
      (by decide) (by decide) (by intro k hk1 hk2; omega) (by decide)
    exact h
  · exact (next_slot_spec envW (fun _ => true) "/p/B").2 (fun _ _ _ => rfl)

theorem splitColons_ne_nil : ∀ cs : List Char, splitColons cs ≠ [] := by
  intro cs
  induction cs with
  | nil => simp [splitColons]
  | cons ch rest ih =>
      unfold splitColons
      by_cases h : ch = ':'
      · simp [h]
      · simp only [if_neg h]
        cases hs : splitColons rest with
        | nil => simp
        | cons hd tl => simp

theorem splitColons_no_colon : ∀ cs : List Char, ':' ∉ cs → splitColons cs = [cs] := by
  intro cs
  induction cs with
  | nil => intro _; rfl
  | cons ch rest ih =>
      intro h
      have hch : ch ≠ ':' := fun e => h (by simp [e])
      have hrest : ':' ∉ rest := fun hr => h (List.mem_cons_of_mem _ hr)
      unfold splitColons
      rw [if_neg hch, ih hrest]

theorem splitColons_cons_of (ch : Char) (l : List Char) (h : ch ≠ ':')
    (hd : List Char) (tl : List (List Char)) (hs : splitColons l = hd :: tl) :
    splitColons (ch :: l) = (ch :: hd) :: tl := by
  simp only [splitColons]
  rw [if_neg h, hs]

theorem splitColons_append (xs rest : List Char) (h : ':' ∉ xs) :
    splitColons (xs ++ ':' :: rest) = xs :: splitColons rest := by
  induction xs with
  | nil => simp [splitColons]
  | cons ch tl ih =>
      have hch : ch ≠ ':' := fun e => h (by simp [e])
      have htl : ':' ∉ tl := fun hr => h (List.mem_cons_of_mem _ hr)
      simp only [List.cons_append]
      exact splitColons_cons_of ch _ hch tl (splitColons rest) (ih htl)

theorem joinColons_splitColons : ∀ cs : List Char, joinColons (splitColons cs) = cs := by
  intro cs
  induction cs with
  | nil => rfl
  | cons ch rest ih =>
      unfold splitColons
      by_cases h : ch = ':'
      · subst h
        simp only [if_pos rfl]
        cases hs : splitColons rest with
        | nil => exact absurd hs (splitColons_ne_nil rest)
        | cons hd tl =>
            rw [hs] at ih
            simpa [joinColons] using ih
      · simp only [if_neg h]
        cases hs : splitColons rest with
        | nil => exact absurd hs (splitColons_ne_nil rest)
        | cons hd tl =>
            rw [hs] at ih
            cases tl with
            | nil =>
                simp only [joinColons] at ih ⊢
                rw [ih]
            | cons t1 t2 =>
                simp only [joinColons, List.cons_append] at ih ⊢
                rw [ih]

theorem string_mk_toList (s : String) : String.mk s.toList = s := by
  cases s
  rfl

theorem toList_ne_nil_of_ne_empty (s : String) (h : s ≠ "") : s.toList ≠ [] := by
  intro hn
  apply h
  cases s with
  | mk d => exact congrArg String.mk hn

/-- C6: owner-identity decoding round-trips encoding and rejects
malformed input.  Decoding `tmux:<session>` yields the session with an
empty window and `ok=true`, decoding `tmux:<session>:<window>` yields
session and window with `ok=true` (first conjunct, for components that
are non-empty and colon-free as tmux ids are); every string not starting
with `tmux:` decodes with `ok=false` (second conjunct); and the bare
prefix `tmux:` — an empty session component — decodes with `ok=false`
(third conjunct). -/
theorem tmux_owner_id_codec :
    (∀ sess win : String, sess ≠ "" → ':' ∉ sess.toList → ':' ∉ win.toList →
      parseTmuxOwnerID (encodeTmuxOwnerID sess win) = (sess, win, true))
    ∧ (∀ s : String, ¬ ("tmux:".toList <+: s.toList) →
      (parseTmuxOwnerID s).2.2 = false)
    ∧ parseTmuxOwnerID "tmux:" = ("", "", false) := by
  refine ⟨?_, ?_, by decide⟩
  · intro sess win hne hcs hcw
    have hsessList : sess.toList ≠ [] := toList_ne_nil_of_ne_empty sess hne
    have hie : sess.toList.isEmpty = false := by
      cases hc : sess.toList with
      | nil => exact absurd hc hsessList
      | cons a b => rfl
    by_cases hw : win = ""
    · subst hw
      have he : encodeTmuxOwnerID sess "" = "tmux:" ++ sess := by
        unfold encodeTmuxOwnerID
        rw [if_pos rfl]
      rw [he]
      have hlist : ("tmux:" ++ sess).toList = "tmux".toList ++ ':' :: sess.toList := by
        simp [String.toList]
      unfold parseTmuxOwnerID
      rw [hlist, splitColons_append _ _ (by decide), splitColons_no_colon _ hcs]
      simp [hie, string_mk_toList, joinColons, show sess.data ≠ [] from hsessList]
    · have he : encodeTmuxOwnerID sess win = "tmux:" ++ sess ++ ":" ++ win := by
        unfold encodeTmuxOwnerID
        rw [if_neg hw]
      rw [he]
      have hlist : ("tmux:" ++ sess ++ ":" ++ win).toList =
          "tmux".toList ++ ':' :: (sess.toList ++ ':' :: win.toList) := by
        simp [String.toList]
      unfold parseTmuxOwnerID
      rw [hlist, splitColons_append _ _ (by decide), splitColons_append _ _ hcs,
        splitColons_no_colon _ hcw]
      simp [hie, string_mk_toList, joinColons, show sess.data ≠ [] from hsessList]
  · intro s hpre
    by_contra hb
    have hb2 : (parseTmuxOwnerID s).2.2 = true := by
      cases h : (parseTmuxOwnerID s).2.2 with
      | false => exact absurd h hb
      | true => rfl
    unfold parseTmuxOwnerID at hb2
    cases hsplit : splitColons s.toList with
    | nil => rw [hsplit] at hb2; simp at hb2
    | cons t rest =>
        cases rest with
        | nil => rw [hsplit] at hb2; simp at hb2
        | cons sess ws =>
            rw [hsplit] at hb2
            by_cases ht : t = "tmux".toList
            · apply hpre
              have hjoin := joinColons_splitColons s.toList
              rw [hsplit] at hjoin
              refine ⟨joinColons (sess :: ws), ?_⟩
              rw [← hjoin, ht]
              rfl
            · have ht2 : ¬ t = ['t', 'm', 'u', 'x'] := ht
              simp [ht2] at hb2

/-- Witness for C6 at the concrete owner ids of the repository's test:
`tmux:$1:@2`, `tmux:$9` and the malformed `term-session:abc`. -/
theorem tmux_owner_id_codec_witness :
    parseTmuxOwnerID (encodeTmuxOwnerID "$1" "@2") = ("$1", "@2", true)
    ∧ parseTmuxOwnerID (encodeTmuxOwnerID "$9" "") = ("$9", "", true)
    ∧ (parseTmuxOwnerID "term-session:abc").2.2 = false :=
  ⟨tmux_owner_id_codec.1 "$1" "@2" (by decide) (by decide) (by decide),
   tmux_owner_id_codec.1 "$9" "" (by decide) (by decide) (by decide),
   tmux_owner_id_codec.2.1 "term-session:abc" (by decide)⟩

theorem lockWorktree_ok_lock (env : Env) (fs : FS) (now : Nat) (c : Caller)
    (root wt br : String) (werr : Option String) (lock : WorktreeLockR)
    (fs1 : FS)
    (h : lockWorktree env fs now c root wt br werr = (Except.ok lock, fs1)) :
    lock = newWorktreeLock (worktreeLockPath env root wt) wt br root := by
  simp only [lockWorktree] at h
  cases hfs : fs (worktreeLockPath env root wt) with
  | none =>
      simp only [hfs] at h
      cases werr with
      | some w => simp at h
      | none =>
          simp only [Prod.mk.injEq, Except.ok.injEq] at h
          exact h.1.symm
  | some info =>
      simp only [hfs] at h
      by_cases hlt : now - info.mtime < 10
      · rw [if_pos hlt] at h
        simp at h
      · rw [if_neg hlt] at h
        simp only [Prod.mk.injEq, Except.ok.injEq] at h
        exact h.1.symm

/-- C7: under the hypotheses that the repository root resolves and slot
allocation yields `target`, a `CreateWorktree` call produces one of three
event traces — no lock activity at all (early failure or failed
acquisition), or acquisition directly followed by release (base-ref
failure), or acquisition, then `git worktree add`, then release (success
and add-failure) — so the lock is always acquired before `git worktree
add` is invoked and released before returning on the success path and on
every failure path; consequently no residual lock file for the new slot
remains after the call returns whenever the lock was acquired; and a
successful call returns a record carrying the trimmed branch name and the
allocated slot path. -/
theorem create_worktree_lock_discipline (env : Env) (g : GitEnv)
    (ex : String → Bool) (fs : FS) (now : Nat) (c : Caller) (branch : String)
    (root target : String)
    (hroot : g.repoRoot = some root)
    (htrim : trimSpace root ≠ "")
    (hnext : nextWorktreePath env ex root = Except.ok target) :
    ((CreateWorktree env g ex fs now c branch).2.2 = []
      ∨ (CreateWorktree env g ex fs now c branch).2.2 =
          [Event.lockAcquired, Event.lockReleased]
      ∨ (CreateWorktree env g ex fs now c branch).2.2 =
          [Event.lockAcquired, Event.gitWorktreeAdd, Event.lockReleased])
    ∧ (Event.lockAcquired ∈ (CreateWorktree env g ex fs now c branch).2.2 →
        (CreateWorktree env g ex fs now c branch).2.1
          (worktreeLockPath env root target) = none)
    ∧ (∀ info, (CreateWorktree env g ex fs now c branch).1 = Except.ok info →
        info.Branch = trimSpace branch ∧ info.Path = target) := by
  simp only [CreateWorktree, hroot, hnext]
  by_cases hb : trimSpace branch = ""
  · rw [if_pos hb]
    refine ⟨?_, ?_, ?_⟩
    · simp
    · intro hmem
      simp at hmem
    · intro info hres
      simp at hres
  · rw [if_neg hb]
    by_cases hg : g.gitInstalled
    · rw [if_neg (not_not_intro hg), if_neg htrim]
      cases hlock : lockWorktree env fs now c root target (trimSpace branch)
          g.lockCreateWriteErr with
      | mk r1 f1 =>
          cases r1 with
          | error e =>
              simp only [hlock]
              refine ⟨?_, ?_, ?_⟩
              · simp
              · intro hmem
                simp at hmem
              · intro info hres
                simp at hres
          | ok lock =>
              have hl := lockWorktree_ok_lock env fs now c root target
                (trimSpace branch) g.lockCreateWriteErr lock f1 hlock
              cases hbase : g.baseRef with
              | error e =>
                  simp only [hlock, hbase]
                  refine ⟨?_, ?_, ?_⟩
                  · simp
                  · intro _
                    simp [Release, hl, newWorktreeLock, fsDel]
                  · intro info hres
                    simp at hres
              | ok b =>
                  by_cases hadd : g.addOk
                  · simp only [hlock, hbase]
                    rw [if_pos hadd]
                    refine ⟨?_, ?_, ?_⟩
                    · simp
                    · intro _
                      simp [Release, hl, newWorktreeLock, fsDel]
                    · intro info hres
                      simp only [Except.ok.injEq] at hres
                      rw [← hres]
                      exact ⟨rfl, rfl⟩
                  · simp only [hlock, hbase]
                    rw [if_neg hadd]
                    refine ⟨?_, ?_, ?_⟩
                    · simp
                    · intro _
                      simp [Release, hl, newWorktreeLock, fsDel]
                    · intro info hres
                      simp at hres
    · rw [if_pos hg]
      refine ⟨?_, ?_, ?_⟩
      · simp
      · intro hmem
        simp at hmem
      · intro info hres
        simp at hres

/-- Witness for C7 at a concrete environment: repo root `/p/B`, no slot
occupied (so the slot is `/p/B.wt/wt.1`), branch `feature/x`, git add
succeeding. -/
theorem create_worktree_lock_discipline_witness :
    gW.repoRoot = some "/p/B"
    ∧ trimSpace "/p/B" ≠ ""
    ∧ nextWorktreePath envW (fun _ => false) "/p/B" = Except.ok "/p/B.wt/wt.1"
    ∧ (((CreateWorktree envW gW (fun _ => false) (fun _ => none) 0 callerW
          "feature/x").2.2 = []
        ∨ (CreateWorktree envW gW (fun _ => false) (fun _ => none) 0 callerW
            "feature/x").2.2 = [Event.lockAcquired, Event.lockReleased]
        ∨ (CreateWorktree envW gW (fun _ => false) (fun _ => none) 0 callerW
            "feature/x").2.2 =
          [Event.lockAcquired, Event.gitWorktreeAdd, Event.lockReleased])
      ∧ (Event.lockAcquired ∈
          (CreateWorktree envW gW (fun _ => false) (fun _ => none) 0 callerW
            "feature/x").2.2 →
          (CreateWorktree envW gW (fun _ => false) (fun _ => none) 0 callerW
            "feature/x").2.1
            (worktreeLockPath envW "/p/B" "/p/B.wt/wt.1") = none)
      ∧ (∀ info,
          (CreateWorktree envW gW (fun _ => false) (fun _ => none) 0 callerW
            "feature/x").1 = Except.ok info →
          info.Branch = trimSpace "feature/x" ∧ info.Path = "/p/B.wt/wt.1")) :=
  ⟨rfl, by decide, rfl,
    create_worktree_lock_discipline envW gW (fun _ => false) (fun _ => none) 0
      callerW "feature/x" "/p/B" "/p/B.wt/wt.1" rfl (by decide) rfl⟩

end Wtx
